import Mathlib

/-!
Verification development for the network chess game server.

The definitions below are a shallow embedding of the C++ sources:
the game state machine (GameState.hpp / GameState.cpp), the shared
game context (GameContext.hpp / GameContext.cpp), the chess-model
wrapper (ChessGame.cpp), the controller upload and playback paths
(GameController.cpp) and the session line framer (Session.cpp).
The external chess rules library (the chess::Board engine) is out of
scope of the repository and is modelled as an abstract record of
operations, exactly the primitives the repository code calls on it.
-/

set_option autoImplicit false

/-- Minimal JSON value model for the nlohmann::json envelopes that the
server builds.  Objects keep the fields in the order the source writes
them; field lookup is by key, so the order never matters to a claim. -/
inductive Json where
  | str (s : String)
  | bool (b : Bool)
  | num (n : Int)
  | obj (fields : List (String × Json))
  | arr (elems : List Json)

/-- Field lookup in a JSON object (models nlohmann contains + at). -/
def Json.get : Json → String → Option Json
  | .obj fields, key => (fields.find? (fun kv => kv.1 == key)).map (fun kv => kv.2)
  | _, _ => none

/-- Extract a string value (models get to std::string, which throws on a
non-string, here none). -/
def Json.asStr : Json → Option String
  | .str s => some s
  | _ => none

/-- Extract an integer value (models get to int). -/
def Json.asInt : Json → Option Int
  | .num n => some n
  | _ => none

/-- Extract a boolean value (models get to bool). -/
def Json.asBool : Json → Option Bool
  | .bool b => some b
  | _ => none

/-- Models nlohmann value(key, default) for strings: the default when the
key is absent. -/
def Json.valueStr (j : Json) (key dflt : String) : String :=
  match j.get key with
  | some v => (v.asStr).getD dflt
  | none => dflt

/-- Models nlohmann value(key, default) for booleans. -/
def Json.valueBool (j : Json) (key : String) (dflt : Bool) : Bool :=
  match j.get key with
  | some v => (v.asBool).getD dflt
  | none => dflt

/-- One egress event produced through the GameContext send callbacks:
broadcast_callback_(origin, msg, to_all) or unicast_callback_(sid, msg). -/
inductive Egress where
  | toAll (origin : String) (msg : Json)
  | toOthers (origin : String) (msg : Json)
  | unicastTo (sid : String) (msg : Json)

/-- ParsedMove from MoveParser.hpp: either coordinate form (src, dst) or a
SAN token.  The field `notationText` embeds the source field named after
the original notation string. -/
structure ParsedMove where
  notationText : String
  src : String
  dst : String
  is_san : Bool
deriving DecidableEq, Repr

/-- Piece kinds of the external chess library (chess::PieceType without
NONE; an absent piece is modelled as none of Option PieceKind). -/
inductive PieceKind where
  | pawn | knight | bishop | rook | queen | king
deriving DecidableEq, Repr

/-- One legal move as the repository observes it from the external
library: the square names of move.from() and move.to(), whether
typeOf() is CASTLING, and whether the destination file is FILE_G. -/
structure ChessMove where
  srcSq : String
  dstSq : String
  isCastling : Bool
  dstFileIsG : Bool
deriving DecidableEq, Repr

/-- The external chess rules engine (chess::Board and helpers), abstract:
exactly the operations ChessGame.cpp invokes on it.  `startpos` is the
board after setFen(STARTPOS); `resultLose` and `resultDraw` are the two
outcomes of isGameOver() the code tests. -/
structure ChessLib (B : Type) where
  startpos : B
  legalmoves : B → List ChessMove
  moveToSan : B → ChessMove → String
  pieceAt : B → String → Option PieceKind
  makeMove : B → ChessMove → B
  inCheck : B → Bool
  resultLose : B → Bool
  resultDraw : B → Bool
  getFen : B → String
  sideToMoveWhite : B → Bool
  boardStream : B → String

/-- StrikeData from StrikeData.hpp, with the C++ default initialisers. -/
structure StrikeData where
  piece : String := ""
  color : String := ""
  case_src : String := ""
  case_dest : String := ""
  strike_number : Nat := 0
  is_capture : Bool := false
  captured_piece : String := ""
  captured_color : String := ""
  is_castling : Bool := false
  castling_type : String := ""
  is_check : Bool := false
  is_checkmate : Bool := false
  is_stalemate : Bool := false
deriving DecidableEq, Repr

/-- ChessGame from ChessGame.hpp: the external board plus the manually
maintained move counter moveNumber_, which starts at 1. -/
structure ChessGame (B : Type) where
  board : B
  moveNumber : Nat
deriving DecidableEq, Repr

/-- ChessGame constructor and ChessGame::reset: board at the standard
starting position, moveNumber_ = 1. -/
def ChessGame.reset {B : Type} (lib : ChessLib B) (_g : ChessGame B) : ChessGame B :=
  { board := lib.startpos, moveNumber := 1 }

/-- ChessGame::getPieceName. -/
def ChessGame.getPieceName : Option PieceKind → String
  | some .pawn => "pawn"
  | some .knight => "knight"
  | some .bishop => "bishop"
  | some .rook => "rook"
  | some .queen => "queen"
  | some .king => "king"
  | none => "unknown"

/-- ChessGame::findMove: scan the legal moves for one whose source and
destination squares match. -/
def ChessGame.findMove {B : Type} (lib : ChessLib B) (g : ChessGame B)
    (fromSq toSq : String) : Option ChessMove :=
  (lib.legalmoves g.board).find? (fun m => m.srcSq == fromSq && m.dstSq == toSq)

/-- The trailing check or mate marker strip that findMoveFromSan applies
to both the generated SAN and the user input. -/
def sanStrip (s : String) : String :=
  if !s.isEmpty && (s.back == '+' || s.back == '#') then s.dropRight 1 else s

/-- ChessGame::findMoveFromSan: first legal move whose rendered SAN
matches the input directly, or loosely after stripping trailing check
and mate suffix characters from both sides. -/
def ChessGame.findMoveFromSan {B : Type} (lib : ChessLib B) (g : ChessGame B)
    (sanMove : String) : Option ChessMove :=
  (lib.legalmoves g.board).find? (fun m =>
    let generatedSan := lib.moveToSan g.board m
    generatedSan == sanMove || sanStrip generatedSan == sanStrip sanMove)

/-- ChessGame::fillStrikeDataBeforeMove: capture data from the piece on
the destination square of the pre-move board, the strike number from the
current moveNumber_, and the mover colour from its parity. -/
def ChessGame.fillStrikeDataBeforeMove {B : Type} (lib : ChessLib B) (g : ChessGame B)
    (mv : ChessMove) : StrikeData :=
  let captured := lib.pieceAt g.board mv.dstSq
  let d0 : StrikeData := { is_capture := captured.isSome }
  let d1 :=
    if captured.isSome then
      { d0 with
        captured_color := if g.moveNumber % 2 == 1 then "black" else "white",
        captured_piece := ChessGame.getPieceName captured }
    else d0
  { d1 with
    strike_number := g.moveNumber,
    color := if g.moveNumber % 2 == 1 then "white" else "black" }

/-- ChessGame::fillStrikeDataAfterMove, called on the post-move board:
squares, moved piece name, the check, checkmate and stalemate flags, and
the castling data when the move type was CASTLING. -/
def ChessGame.fillStrikeDataAfterMove {B : Type} (lib : ChessLib B) (g : ChessGame B)
    (mv : ChessMove) (d : StrikeData) : StrikeData :=
  let d1 := { d with
    case_src := mv.srcSq,
    case_dest := mv.dstSq,
    piece := ChessGame.getPieceName (lib.pieceAt g.board mv.dstSq),
    is_check := lib.inCheck g.board,
    is_checkmate := lib.resultLose g.board,
    is_stalemate := lib.resultDraw g.board }
  if mv.isCastling then
    { d1 with
      is_castling := true,
      castling_type := if mv.dstFileIsG then "little" else "big" }
  else d1

/-- ChessGame::applyMove: look up the legal move (by SAN or by squares);
on failure return none and leave the game untouched; on success fill the
strike data around makeMove and increment moveNumber_. -/
def ChessGame.applyMove {B : Type} (lib : ChessLib B) (g : ChessGame B)
    (mv : ParsedMove) : Option (StrikeData × ChessGame B) :=
  let chessMove :=
    if mv.is_san then g.findMoveFromSan lib mv.notationText
    else g.findMove lib mv.src mv.dst
  match chessMove with
  | none => none
  | some cm =>
    let d0 := ChessGame.fillStrikeDataBeforeMove lib g cm
    let g1 : ChessGame B := { board := lib.makeMove g.board cm, moveNumber := g.moveNumber + 1 }
    let d := ChessGame.fillStrikeDataAfterMove lib g1 cm d0
    some (d, g1)

/-- The four concrete IGameState implementations of GameState.hpp, as a
tagged variant. -/
inductive GameStateTag where
  | waitingForPlayers | readyToStart | inProgress | gameOver
deriving DecidableEq, Repr

/-- GameContext from GameContext.hpp: current state, the ChessGame, and
the two player slot strings (empty string means unbound). -/
structure GameContext (B : Type) where
  state : GameStateTag
  chess : ChessGame B
  whitePlayer : String
  blackPlayer : String
deriving Repr

/-- GameContext::hasWhitePlayer. -/
def GameContext.hasWhitePlayer {B : Type} (ctx : GameContext B) : Bool :=
  !ctx.whitePlayer.isEmpty

/-- GameContext::hasBlackPlayer. -/
def GameContext.hasBlackPlayer {B : Type} (ctx : GameContext B) : Bool :=
  !ctx.blackPlayer.isEmpty

/-- GameContext::bothPlayersJoined. -/
def GameContext.bothPlayersJoined {B : Type} (ctx : GameContext B) : Bool :=
  ctx.hasWhitePlayer && ctx.hasBlackPlayer

/-- GameContext::getStatusMessage, including the side-to-move query on
the chess model in the InProgress branch. -/
def GameContext.getStatusMessage {B : Type} (lib : ChessLib B) (ctx : GameContext B) : String :=
  match ctx.state with
  | .waitingForPlayers =>
      if ctx.hasWhitePlayer && !ctx.hasBlackPlayer then
        "Player 1 (White) joined. Waiting for Player 2 (Black)"
      else if ctx.hasBlackPlayer && !ctx.hasWhitePlayer then
        "Player 1 (Black) joined. Waiting for Player 2 (White)"
      else
        "Waiting for players to join"
  | .readyToStart =>
      "Both players joined. Wait for start command to be sent by a player"
  | .inProgress =>
      if lib.sideToMoveWhite ctx.chess.board then "Game in progress - White\x27s turn"
      else "Game in progress - Black\x27s turn"
  | .gameOver => "Game over"

/-- The buildError helper every state class defines identically. -/
def buildError (msg : String) : Json :=
  Json.obj [("type", Json.str "error"), ("error", Json.str msg)]

/-- One handler result: the JSON reply returned to the requesting
session, the context after the call, and the egress events emitted
through the send callbacks, in order. -/
abbrev HandlerResult (B : Type) := Json × GameContext B × List Egress

/-- The tail of WaitingForPlayersState::handleJoinRequest after the slot
assignment: transition and game_ready broadcast when both players are
bound, player_joined broadcast to the others otherwise, then the
join_success reply (whose status is read after any transition). -/
def joinRequestTail {B : Type} (lib : ChessLib B) (ctx : GameContext B)
    (player_id color : String) : HandlerResult B :=
  let (ctx2, egress) :=
    if ctx.bothPlayersJoined then
      let c2 := { ctx with state := GameStateTag.readyToStart }
      let ready_broadcast := Json.obj
        [("type", Json.str "game_ready"),
         ("status", Json.str "Both players joined. You can now start the game!"),
         ("white_player", Json.str c2.whitePlayer),
         ("black_player", Json.str c2.blackPlayer)]
      (c2, [Egress.toAll player_id ready_broadcast])
    else
      let player_joined := Json.obj
        [("type", Json.str "player_joined"),
         ("color", Json.str color),
         ("status", Json.str (GameContext.getStatusMessage lib ctx))]
      (ctx, [Egress.toOthers player_id player_joined])
  let join_response := Json.obj
    [("type", Json.str "join_success"),
     ("session_id", Json.str player_id),
     ("color", Json.str color),
     ("status", Json.str (GameContext.getStatusMessage lib ctx2)),
     ("single_player", Json.bool false)]
  (join_response, ctx2, egress)

/-- WaitingForPlayersState::handleJoinRequest: validate the colour,
reject a slot held by a different session, assign, then the common
tail. -/
def WaitingForPlayersState.handleJoinRequest {B : Type} (lib : ChessLib B)
    (ctx : GameContext B) (player_id color : String) : HandlerResult B :=
  if color == "white" then
    if ctx.hasWhitePlayer && ctx.whitePlayer != player_id then
      (buildError "White player slot already taken", ctx, [])
    else
      joinRequestTail lib { ctx with whitePlayer := player_id } player_id color
  else if color == "black" then
    if ctx.hasBlackPlayer && ctx.blackPlayer != player_id then
      (buildError "Black player slot already taken", ctx, [])
    else
      joinRequestTail lib { ctx with blackPlayer := player_id } player_id color
  else
    (buildError "Invalid color", ctx, [])

/-- WaitingForPlayersState::handleJoinRequestAsSinglePlayer: bind both
slots to the requester, transition to ReadyToStart, reply join_success
with single_player true; no broadcast is emitted. -/
def WaitingForPlayersState.handleJoinRequestAsSinglePlayer {B : Type} (lib : ChessLib B)
    (ctx : GameContext B) (player_id : String) : HandlerResult B :=
  let c1 := { ctx with whitePlayer := player_id, blackPlayer := player_id }
  let c2 := { c1 with state := GameStateTag.readyToStart }
  let join_response := Json.obj
    [("type", Json.str "join_success"),
     ("session_id", Json.str player_id),
     ("status", Json.str (GameContext.getStatusMessage lib c2)),
     ("single_player", Json.bool true)]
  (join_response, c2, [])

/-- ReadyToStartState::handleStartRequest: transition to InProgress,
reset the chess model, reply game_started with the FEN, and broadcast a
game_started envelope with the player ids to the other sessions.  The
source performs no check that the requester is a bound player. -/
def ReadyToStartState.handleStartRequest {B : Type} (lib : ChessLib B)
    (ctx : GameContext B) (player_id : String) : HandlerResult B :=
  let c1 := { ctx with state := GameStateTag.inProgress }
  let c2 := { c1 with chess := ChessGame.reset lib c1.chess }
  let fen := lib.getFen c2.chess.board
  let start_response := Json.obj
    [("type", Json.str "game_started"),
     ("status", Json.str (GameContext.getStatusMessage lib c2)),
     ("board", Json.obj [("fen", Json.str fen)])]
  let game_started_broadcast := Json.obj
    [("type", Json.str "game_started"),
     ("status", Json.str (GameContext.getStatusMessage lib c2)),
     ("white_player", Json.str c2.whitePlayer),
     ("black_player", Json.str c2.blackPlayer),
     ("board", Json.obj [("fen", Json.str fen)])]
  (start_response, c2, [Egress.toOthers player_id game_started_broadcast])

/-- The strike object of a move_result envelope, field for field as
InProgressState::handleMoveRequest writes it. -/
def strikeJson (d : StrikeData) : Json :=
  Json.obj
    [("case_src", Json.str d.case_src),
     ("case_dest", Json.str d.case_dest),
     ("piece", Json.str d.piece),
     ("color", Json.str d.color),
     ("strike_number", Json.num (Int.ofNat d.strike_number)),
     ("is_capture", Json.bool d.is_capture),
     ("captured_piece", Json.str d.captured_piece),
     ("captured_color", Json.str d.captured_color),
     ("is_castling", Json.bool d.is_castling),
     ("castling_type", Json.str d.castling_type),
     ("check", Json.bool d.is_check),
     ("checkmate", Json.bool d.is_checkmate),
     ("stalemate", Json.bool d.is_stalemate)]

/-- InProgressState::handleMoveRequest: apply the move through the chess
model; on rejection reply the Invalid move error and touch nothing; on
success build the move_result envelope, transition to GameOver when the
report flags checkmate or stalemate, and broadcast the same envelope to
the other sessions. -/
def InProgressState.handleMoveRequest {B : Type} (lib : ChessLib B)
    (ctx : GameContext B) (player_id : String) (mv : ParsedMove) : HandlerResult B :=
  match ctx.chess.applyMove lib mv with
  | none => (buildError "Invalid move", ctx, [])
  | some (d, g1) =>
    let fen := lib.getFen g1.board
    let response := Json.obj
      [("type", Json.str "move_result"),
       ("success", Json.bool true),
       ("strike", strikeJson d),
       ("board", Json.obj [("fen", Json.str fen)])]
    let c1 := { ctx with chess := g1 }
    let c2 :=
      if d.is_checkmate || d.is_stalemate then { c1 with state := GameStateTag.gameOver }
      else c1
    (response, c2, [Egress.toOthers player_id response])

/-- InProgressState::handleDisplayBoard (board rendering path): the
board_display envelope around ChessGame::getBoardFormatted.  The
getBoardFormatted string munging is embedded below. -/
def ChessGame.getBoardFormatted {B : Type} (lib : ChessLib B) (g : ChessGame B) : String :=
  let ascii := lib.boardStream g.board
  -- std::getline loop: split at newlines, stop after 8 extracted lines
  let allLines := if ascii.isEmpty then [] else
    (if ascii.back == '\n' then (ascii.splitOn "\n").dropLast else ascii.splitOn "\n")
  let lines := allLines.take 8
  if lines.length != 8 then "Error: Invalid board format"
  else
    let header := "    a   b   c   d   e   f   g   h\n ---------------------------------\n"
    let rows := (List.range 8).map (fun rank =>
      let rank_num := 8 - rank
      -- operator>> char extraction: every non-whitespace character in order
      let pieces := ((lines.getD rank "").toList).filter (fun c => !c.isWhitespace)
      if pieces.length != 8 then none
      else
        let cells := pieces.map (fun p =>
          let p2 := if p == 'n' then 'c' else if p == 'N' then 'C'
                    else if p == '.' then ' ' else p
          " " ++ String.singleton p2 ++ " |")
        some (toString rank_num ++ " |" ++ String.join cells ++
              "\n ---------------------------------\n"))
    if rows.any (fun r => r.isNone) then "Error: Invalid board row"
    else header ++ String.join (rows.map (fun r => r.getD "")) ++
         "    a   b   c   d   e   f   g   h\n"

/-- InProgressState::handleDisplayBoard. -/
def InProgressState.handleDisplayBoard {B : Type} (lib : ChessLib B)
    (ctx : GameContext B) : HandlerResult B :=
  let boardASCII := ChessGame.getBoardFormatted lib ctx.chess
  let response := Json.obj
    [("type", Json.str "board_display"),
     ("status", Json.str "ok"),
     ("data", Json.obj [("board", Json.str boardASCII)])]
  (response, ctx, [])

/-- GameContext::resetGame: clear both player slots, reset the chess
model, transition back to WaitingForPlayers, and return the game_reset
reply.  The broadcast block that follows in the source sits after the
unconditional return statement and is unreachable, so no egress event is
produced. -/
def GameContext.resetGame {B : Type} (lib : ChessLib B) (ctx : GameContext B)
    (_player_id : String) : HandlerResult B :=
  let c : GameContext B :=
    { state := GameStateTag.waitingForPlayers,
      chess := ChessGame.reset lib ctx.chess,
      whitePlayer := "", blackPlayer := "" }
  (Json.obj [("type", Json.str "game_reset"),
             ("status", Json.str "Waiting for new players")], c, [])

/-- GameContext::handleJoinRequest: dispatch on the current state; the
non-waiting states reply their fixed errors. -/
def GameContext.handleJoinRequest {B : Type} (lib : ChessLib B) (ctx : GameContext B)
    (player_id color : String) : HandlerResult B :=
  match ctx.state with
  | .waitingForPlayers => WaitingForPlayersState.handleJoinRequest lib ctx player_id color
  | .readyToStart => (buildError "Both players already joined", ctx, [])
  | .inProgress => (buildError "Game already in progress", ctx, [])
  | .gameOver => (buildError "Game is over. Start a new game", ctx, [])

/-- GameContext::handleJoinRequestAsSinglePlayer: dispatch on the current
state. -/
def GameContext.handleJoinRequestAsSinglePlayer {B : Type} (lib : ChessLib B)
    (ctx : GameContext B) (player_id : String) : HandlerResult B :=
  match ctx.state with
  | .waitingForPlayers => WaitingForPlayersState.handleJoinRequestAsSinglePlayer lib ctx player_id
  | .readyToStart => (buildError "Game already in progress", ctx, [])
  | .inProgress => (buildError "Game already in progress", ctx, [])
  | .gameOver => (buildError "Game already in progress", ctx, [])

/-- GameContext::handleStartRequest: dispatch on the current state. -/
def GameContext.handleStartRequest {B : Type} (lib : ChessLib B) (ctx : GameContext B)
    (player_id : String) : HandlerResult B :=
  match ctx.state with
  | .waitingForPlayers => (buildError "Cannot start: waiting for players", ctx, [])
  | .readyToStart => ReadyToStartState.handleStartRequest lib ctx player_id
  | .inProgress => (buildError "Game already started", ctx, [])
  | .gameOver => (buildError "Game is over. Reset first", ctx, [])

/-- GameContext::handleMoveRequest: dispatch on the current state. -/
def GameContext.handleMoveRequest {B : Type} (lib : ChessLib B) (ctx : GameContext B)
    (player_id : String) (mv : ParsedMove) : HandlerResult B :=
  match ctx.state with
  | .waitingForPlayers => (buildError "Cannot move: game not started", ctx, [])
  | .readyToStart => (buildError "Game not started yet", ctx, [])
  | .inProgress => InProgressState.handleMoveRequest lib ctx player_id mv
  | .gameOver => (buildError "Game is over", ctx, [])

/-- GameContext::handleEndRequest: WaitingForPlayers rejects; the three
other states delegate to GameContext::resetGame. -/
def GameContext.handleEndRequest {B : Type} (lib : ChessLib B) (ctx : GameContext B)
    (player_id : String) : HandlerResult B :=
  match ctx.state with
  | .waitingForPlayers => (buildError "No game to end", ctx, [])
  | .readyToStart => GameContext.resetGame lib ctx player_id
  | .inProgress => GameContext.resetGame lib ctx player_id
  | .gameOver => GameContext.resetGame lib ctx player_id

/-- GameContext::handleDisplayBoard: dispatch on the current state. -/
def GameContext.handleDisplayBoard {B : Type} (lib : ChessLib B)
    (ctx : GameContext B) : HandlerResult B :=
  match ctx.state with
  | .waitingForPlayers => (buildError "No game to display", ctx, [])
  | .readyToStart => (buildError "Game not started yet", ctx, [])
  | .inProgress => InProgressState.handleDisplayBoard lib ctx
  | .gameOver => (buildError "Game is over. Start a new game", ctx, [])

/-- FileUploadState from GameController.hpp, with its member default
initialisers. -/
structure FileUploadState where
  filename : String := ""
  total_size : Int := 0
  chunks_total : Int := 0
  chunks_received : Int := 0
  accumulated_data : String := ""
deriving DecidableEq, Repr

/-- Association-list update for the file_uploads_ map. -/
def uploadsStore (uploads : List (String × FileUploadState)) (key : String)
    (st : FileUploadState) : List (String × FileUploadState) :=
  if (uploads.find? (fun kv => kv.1 == key)).isSome then
    uploads.map (fun kv => if kv.1 == key then (key, st) else kv)
  else
    uploads ++ [(key, st)]

/-- Association-list erase for the file_uploads_ map. -/
def uploadsErase (uploads : List (String × FileUploadState)) (key : String) :
    List (String × FileUploadState) :=
  uploads.filter (fun kv => kv.1 != key)

/-- The playback loop of GameController::processFileContent: run each
parsed move through the context as a regular move, unicast its envelope
to the originating session, stop at the first error reply or at a
terminal checkmate or stalemate flag.  Returns the walked context, the
egress events in order, successful_moves, game_complete, result and
last_error.  The source builds the result string identically in the
checkmate and the stalemate branch. -/
def playbackLoop {B : Type} (lib : ChessLib B) (ctx : GameContext B)
    (session_id : String) : List ParsedMove →
    GameContext B × List Egress × Nat × Bool × String × String
  | [] => (ctx, [], 0, false, "", "")
  | m :: rest =>
    let (response, ctx1, egress1) := GameContext.handleMoveRequest lib ctx session_id m
    if (match response.get "type" with
        | some (Json.str t) => t == "error"
        | _ => false) then
      (ctx1, egress1, 0, false, "", response.valueStr "error" "Unknown error")
    else
      let egressU := egress1 ++ [Egress.unicastTo session_id response]
      match response.get "strike" with
      | some strike =>
        let checkmate := strike.valueBool "checkmate" false
        let checkstale := strike.valueBool "stalemate" false
        if checkmate || checkstale then
          let winner_color := strike.valueStr "color" ""
          let result :=
            if checkmate then "checkmate (" ++ winner_color ++ " wins)"
            else "checkmate (" ++ winner_color ++ " wins)"
          (ctx1, egressU, 1, true, result, "")
        else
          let (ctx2, eg, s, gc, r, le) := playbackLoop lib ctx1 session_id rest
          (ctx2, egressU ++ eg, s + 1, gc, r, le)
      | none =>
        let (ctx2, eg, s, gc, r, le) := playbackLoop lib ctx1 session_id rest
        (ctx2, egressU ++ eg, s + 1, gc, r, le)

/-- GameController::processFileContent: parse the accumulated upload with
the configured strategy (passed as a function, the IGameParser
parseGame), unicast a game_complete error when no move parses, otherwise
run the playback loop and, only when it ended on a terminal position,
unicast the final game_over envelope. -/
def GameController.processFileContent {B : Type} (lib : ChessLib B)
    (parseGameFn : String → Option (List ParsedMove)) (ctx : GameContext B)
    (session_id filename data : String) : GameContext B × List Egress :=
  match parseGameFn data with
  | none =>
    (ctx, [Egress.unicastTo session_id (Json.obj
      [("type", Json.str "game_complete"), ("filename", Json.str filename),
       ("total_moves", Json.num 0),
       ("error", Json.str "No valid moves found. Check file format.")])])
  | some moves =>
    if moves.isEmpty then
      (ctx, [Egress.unicastTo session_id (Json.obj
        [("type", Json.str "game_complete"), ("filename", Json.str filename),
         ("total_moves", Json.num 0),
         ("error", Json.str "No valid moves found. Check file format.")])])
    else
      let (ctx1, egress, successful_moves, game_complete, result, last_error) :=
        playbackLoop lib ctx session_id moves
      if game_complete then
        let base :=
          [("type", Json.str "game_over"), ("result", Json.str result),
           ("filename", Json.str filename),
           ("total_moves", Json.num (Int.ofNat successful_moves)),
           ("requested_moves", Json.num (Int.ofNat moves.length))]
        let final_response := Json.obj
          (if !last_error.isEmpty then base ++ [("error", Json.str last_error)] else base)
        (ctx1, egress ++ [Egress.unicastTo session_id final_response])
      else
        (ctx1, egress)

/-- Outcome of GameController::handleFileUploadChunk.  `ok` carries the
optional reply to the requester, the upload table, the context and the
egress after the call; `divByZero` marks the undefined integer division
the source reaches when chunks_total is zero. -/
inductive UploadOutcome (B : Type) where
  | ok (resp : Option Json) (uploads : List (String × FileUploadState))
       (ctx : GameContext B) (egress : List Egress)
  | divByZero

/-- GameController::handleFileUploadChunk: extract the chunk metadata
(any missing key or wrong type raises a json exception that the catch
block converts to the Invalid upload chunk format error), create or
extend the upload entry, compute the progress percent with an integer
division by chunks_total, then either finish (run playback and erase the
entry, replying nothing) or reply an upload_progress acknowledgment. -/
def GameController.handleFileUploadChunk {B : Type} (lib : ChessLib B)
    (parseGameFn : String → Option (List ParsedMove))
    (uploads : List (String × FileUploadState)) (ctx : GameContext B)
    (json_message : Json) (session_id : String) : UploadOutcome B :=
  let extracted := do
    let metadata ← json_message.get "metadata"
    let filename ← (← metadata.get "filename").asStr
    let total_size ← (← metadata.get "total_size").asInt
    let chunks_total ← (← metadata.get "chunks_total").asInt
    let chunk_current ← (← metadata.get "chunk_current").asInt
    let chunk_data ← (← json_message.get "data").asStr
    pure (filename, total_size, chunks_total, chunk_current, chunk_data)
  match extracted with
  | none =>
    UploadOutcome.ok (some (Json.obj
      [("type", Json.str "error"),
       ("error", Json.str "Invalid upload chunk format")])) uploads ctx []
  | some (filename, total_size, chunks_total, chunk_current, chunk_data) =>
    let upload_key := session_id ++ ":" ++ filename
    let upload0 := ((uploads.find? (fun kv => kv.1 == upload_key)).map (fun kv => kv.2)).getD {}
    let upload1 :=
      if chunk_current == 1 then
        { filename := filename, total_size := total_size, chunks_total := chunks_total,
          chunks_received := 0, accumulated_data := "" }
      else upload0
    let upload2 := { upload1 with
      accumulated_data := upload1.accumulated_data ++ chunk_data,
      chunks_received := chunk_current }
    -- int percent = (chunk_current * 100) / chunks_total; C++ integer
    -- division is undefined when the divisor is zero
    if chunks_total == 0 then
      UploadOutcome.divByZero
    else
      let percent := Int.tdiv (chunk_current * 100) chunks_total
      if chunk_current >= chunks_total then
        let (ctx1, egress) := GameController.processFileContent lib parseGameFn ctx
          session_id filename upload2.accumulated_data
        UploadOutcome.ok none (uploadsErase (uploadsStore uploads upload_key upload2) upload_key)
          ctx1 egress
      else
        let ack := Json.obj
          [("type", Json.str "upload_progress"), ("filename", Json.str filename),
           ("chunk_received", Json.num chunk_current),
           ("chunks_total", Json.num chunks_total),
           ("percent", Json.num percent)]
        UploadOutcome.ok (some ack) (uploadsStore uploads upload_key upload2) ctx []

/-- One iteration of the framing loop in Session::onReceive: the
buffer.find of the first newline, the substr of the message before it
and the erase up to and including it.  none when the buffer holds no
newline. -/
def splitAtNewline : List Char → Option (List Char × List Char)
  | [] => none
  | c :: rest =>
    if c = '\n' then some ([], rest)
    else
      match splitAtNewline rest with
      | none => none
      | some (msg, r) => some (c :: msg, r)

theorem splitAtNewline_shorter : ∀ (l m r : List Char),
    splitAtNewline l = some (m, r) → r.length < l.length := by
  intro l
  induction l with
  | nil => intro m r h; simp [splitAtNewline] at h
  | cons c rest ih =>
    intro m r h
    by_cases hc : c = '\n'
    · rw [splitAtNewline, if_pos hc] at h
      injection h with h2
      injection h2 with _ hr
      rw [← hr]
      simp
    · rw [splitAtNewline, if_neg hc] at h
      cases heq : splitAtNewline rest with
      | none => rw [heq] at h; exact Option.noConfusion h
      | some p =>
        rcases p with ⟨m2, r2⟩
        rw [heq] at h
        injection h with h2
        injection h2 with _ hr
        have := ih m2 r2 heq
        rw [← hr]
        simp only [List.length_cons]
        omega

/-- The while loop of Session::onReceive: repeatedly extract the message
before the first newline of the buffer until none remains; returns the
extracted messages in order and the final buffer. -/
def Session.onReceiveLoop (buf : List Char) : List (List Char) × List Char :=
  match h : splitAtNewline buf with
  | none => ([], buf)
  | some (message, rest) =>
    let (ms, r) := Session.onReceiveLoop rest
    (message :: ms, r)
termination_by buf.length
decreasing_by exact splitAtNewline_shorter buf message rest h

theorem onReceiveLoop_of_none (buf : List Char) (h : splitAtNewline buf = none) :
    Session.onReceiveLoop buf = ([], buf) := by
  rw [Session.onReceiveLoop]
  split
  · rfl
  · rename_i message rest heq
    rw [h] at heq
    exact Option.noConfusion heq

theorem onReceiveLoop_of_some (buf m r : List Char) (h : splitAtNewline buf = some (m, r)) :
    Session.onReceiveLoop buf =
      (m :: (Session.onReceiveLoop r).1, (Session.onReceiveLoop r).2) := by
  rw [Session.onReceiveLoop]
  split
  · rename_i heq
    rw [h] at heq
    exact Option.noConfusion heq
  · rename_i message rest heq
    rw [h] at heq
    injection heq with h2
    have hm : m = message := congrArg Prod.fst h2
    have hr : r = rest := congrArg Prod.snd h2
    subst hm; subst hr
    rcases h3 : Session.onReceiveLoop r with ⟨ms, rr⟩
    simp [h3]

/-- Session::onReceive: append the received bytes to the buffer, then run
the framing loop.  Returns the messages handed to handleMessage, in
order, and the retained buffer. -/
def Session.onReceive (buf raw : List Char) : List (List Char) × List Char :=
  Session.onReceiveLoop (buf ++ raw)

/-- Feeding a sequence of received byte chunks through Session::onReceive
in order: all dispatched messages, in order, and the final buffer. -/
def Session.runChunks (buf : List Char) : List (List Char) → List (List Char) × List Char
  | [] => ([], buf)
  | c :: cs =>
    let (ms, buf1) := Session.onReceive buf c
    let (ms2, buf2) := Session.runChunks buf1 cs
    (ms ++ ms2, buf2)

/-- Structural reformulation of the framing loop, used for induction. -/
def extractLines : List Char → List (List Char) × List Char
  | [] => ([], [])
  | c :: rest =>
    let (ls, r) := extractLines rest
    if c = '\n' then ([] :: ls, r)
    else
      match ls with
      | [] => ([], c :: r)
      | l :: ls2 => ((c :: l) :: ls2, r)

theorem extractLines_of_no_newline : ∀ l : List Char, '\n' ∉ l → extractLines l = ([], l) := by
  intro l
  induction l with
  | nil => intro _; rfl
  | cons c rest ih =>
    intro h
    have hc : c ≠ '\n' := fun hc => h (hc ▸ List.mem_cons_self c rest)
    have hr : '\n' ∉ rest := fun hm => h (List.mem_cons_of_mem c hm)
    simp only [extractLines, ih hr, if_neg hc]

theorem splitAtNewline_none_iff : ∀ l : List Char, splitAtNewline l = none ↔ '\n' ∉ l := by
  intro l
  induction l with
  | nil => simp [splitAtNewline]
  | cons c rest ih =>
    by_cases hc : c = '\n'
    · subst hc
      rw [splitAtNewline, if_pos rfl]
      simp
    · rw [splitAtNewline, if_neg hc]
      constructor
      · intro h hmem
        rcases List.mem_cons.mp hmem with h1 | h2
        · exact hc h1.symm
        · cases heq : splitAtNewline rest with
          | none => exact (ih.mp heq) h2
          | some p =>
            rcases p with ⟨m2, r2⟩
            rw [heq] at h
            exact Option.noConfusion h
      · intro hmem
        have hr : '\n' ∉ rest := fun hm => hmem (List.mem_cons_of_mem _ hm)
        rw [ih.mpr hr]

theorem onReceiveLoop_eq_extractLines : ∀ l : List Char,
    Session.onReceiveLoop l = extractLines l := by
  intro l
  induction l with
  | nil => rw [onReceiveLoop_of_none [] rfl]; rfl
  | cons c rest ih =>
    by_cases hc : c = '\n'
    · subst hc
      have hsplit : splitAtNewline ('\n' :: rest) = some ([], rest) := by
        rw [splitAtNewline, if_pos rfl]
      rw [onReceiveLoop_of_some _ _ _ hsplit, ih]
      rcases h : extractLines rest with ⟨ls, r⟩
      simp [extractLines, h]
    · cases heq : splitAtNewline rest with
      | none =>
        have hnr : '\n' ∉ rest := (splitAtNewline_none_iff rest).mp heq
        have hcl : splitAtNewline (c :: rest) = none := by
          rw [splitAtNewline, if_neg hc, heq]
        rw [onReceiveLoop_of_none _ hcl]
        have h1 : extractLines rest = ([], rest) := extractLines_of_no_newline rest hnr
        simp only [extractLines, h1, if_neg hc]
      | some p =>
        rcases p with ⟨m, r⟩
        have hcl : splitAtNewline (c :: rest) = some (c :: m, r) := by
          rw [splitAtNewline, if_neg hc, heq]
        rw [onReceiveLoop_of_some _ _ _ hcl]
        have hrest : Session.onReceiveLoop rest =
            (m :: (Session.onReceiveLoop r).1, (Session.onReceiveLoop r).2) :=
          onReceiveLoop_of_some _ _ _ heq
        have hext : extractLines rest = (m :: (Session.onReceiveLoop r).1,
            (Session.onReceiveLoop r).2) := by rw [← ih, hrest]
        simp only [extractLines, hext, if_neg hc]

theorem extractLines_append : ∀ a b : List Char,
    extractLines (a ++ b) =
      ((extractLines a).1 ++ (extractLines ((extractLines a).2 ++ b)).1,
       (extractLines ((extractLines a).2 ++ b)).2) := by
  intro a
  induction a with
  | nil => intro b; simp [extractLines]
  | cons c a2 ih =>
    intro b
    rcases h1 : extractLines a2 with ⟨ls, r⟩
    have hih := ih b
    rw [h1] at hih
    simp only at hih
    by_cases hc : c = '\n'
    · subst hc
      rcases h3 : extractLines (r ++ b) with ⟨E1, E2⟩
      rw [h3] at hih
      simp only at hih
      simp [extractLines, h1, hih, h3]
    · cases ls with
      | nil =>
        rcases h3 : extractLines (r ++ b) with ⟨E1, E2⟩
        rw [h3] at hih
        simp only [List.nil_append] at hih
        cases E1 with
        | nil =>
          simp [extractLines, h1, hih, h3, if_neg hc]
        | cons e1 E1s =>
          simp [extractLines, h1, hih, h3, if_neg hc]
      | cons l ls2 =>
        rcases h3 : extractLines (r ++ b) with ⟨E1, E2⟩
        rw [h3] at hih
        simp only at hih
        simp [extractLines, h1, hih, h3, if_neg hc]
theorem extractLines_reconstruct : ∀ s : List Char,
    ((extractLines s).1.map (fun m => m ++ ['\n'])).flatten ++ (extractLines s).2 = s := by
  intro s
  induction s with
  | nil => rfl
  | cons c rest ih =>
    rcases h : extractLines rest with ⟨ls, r⟩
    rw [h] at ih
    simp only at ih
    by_cases hc : c = '\n'
    · subst hc
      simp [extractLines, h, ih]
    · cases ls with
      | nil =>
        simp only [List.map_nil, List.flatten_nil, List.nil_append] at ih
        simp [extractLines, h, if_neg hc, ih]
      | cons l ls2 =>
        simp only [extractLines, h, if_neg hc]
        simp only [List.map_cons, List.flatten_cons, List.append_assoc] at ih ⊢
        rw [← ih]
        simp
theorem extractLines_msgs_no_newline : ∀ (s : List Char) (m : List Char),
    m ∈ (extractLines s).1 → '\n' ∉ m := by
  intro s
  induction s with
  | nil => intro m hm; simp [extractLines] at hm
  | cons c rest ih =>
    intro m hm
    rcases h : extractLines rest with ⟨ls, r⟩
    rw [h] at ih
    simp only at ih
    by_cases hc : c = '\n'
    · subst hc
      simp only [extractLines, h, if_pos rfl] at hm
      rcases List.mem_cons.mp hm with h1 | h2
      · subst h1; simp
      · exact ih m h2
    · cases ls with
      | nil =>
        simp only [extractLines, h, if_neg hc] at hm
        simp at hm
      | cons l ls2 =>
        simp only [extractLines, h, if_neg hc] at hm
        rcases List.mem_cons.mp hm with h1 | h2
        · subst h1
          intro hmem
          rcases List.mem_cons.mp hmem with h3 | h4
          · exact hc h3.symm
          · exact ih l (List.mem_cons_self l ls2) h4
        · exact ih m (List.mem_cons_of_mem l h2)
theorem extractLines_rest_no_newline : ∀ s : List Char, '\n' ∉ (extractLines s).2 := by
  intro s
  induction s with
  | nil => simp [extractLines]
  | cons c rest ih =>
    rcases h : extractLines rest with ⟨ls, r⟩
    rw [h] at ih
    simp only at ih
    by_cases hc : c = '\n'
    · subst hc
      simp [extractLines, h, ih]
    · cases ls with
      | nil =>
        simp only [extractLines, h, if_neg hc]
        intro hmem
        rcases List.mem_cons.mp hmem with h1 | h2
        · exact hc h1.symm
        · exact ih h2
      | cons l ls2 =>
        simp only [extractLines, h, if_neg hc]
        exact ih
theorem runChunks_eq_extractLines : ∀ (chunks : List (List Char)) (buf : List Char),
    '\n' ∉ buf → Session.runChunks buf chunks = extractLines (buf ++ chunks.flatten) := by
  intro chunks
  induction chunks with
  | nil =>
    intro buf hbuf
    simp only [List.flatten_nil, List.append_nil]
    rw [Session.runChunks, extractLines_of_no_newline buf hbuf]
  | cons c cs ih =>
    intro buf hbuf
    rw [Session.runChunks]
    simp only [Session.onReceive, onReceiveLoop_eq_extractLines]
    rcases ha : extractLines (buf ++ c) with ⟨ls_a, r_a⟩
    have hra : '\n' ∉ r_a := by
      have := extractLines_rest_no_newline (buf ++ c)
      rw [ha] at this
      exact this
    rw [ih r_a hra]
    have happ := extractLines_append (buf ++ c) cs.flatten
    rw [ha] at happ
    simp only at happ
    simp only [List.flatten_cons, ← List.append_assoc]
    rw [happ]

/-- Claim C8: for every sequence of received byte chunks, the session framer
dispatches to the controller exactly the newline-terminated lines of the
concatenation of the chunks, in order (the dispatched messages, each
re-terminated with a newline, concatenate with the retained buffer back
to the input), every dispatched message is newline-free, and the
retained trailing buffer is newline-free. -/
theorem session_framer_dispatches_lines_c8 (chunks : List (List Char)) :
    ((Session.runChunks [] chunks).1.map (fun m => m ++ ['\n'])).flatten
        ++ (Session.runChunks [] chunks).2 = chunks.flatten
    ∧ (∀ m ∈ (Session.runChunks [] chunks).1, '\n' ∉ m)
    ∧ '\n' ∉ (Session.runChunks [] chunks).2 := by
  have h := runChunks_eq_extractLines chunks [] (by simp)
  simp only [List.nil_append] at h
  rw [h]
  exact ⟨extractLines_reconstruct chunks.flatten,
         extractLines_msgs_no_newline chunks.flatten,
         extractLines_rest_no_newline chunks.flatten⟩

/-- A client issuing a sequence of moves against one ChessGame: a
rejected move (applyMove nullopt) leaves the game untouched, exactly as
ChessGame::applyMove mutates nothing on its early return; a successful
move advances the game and appends its StrikeData report. -/
def ChessGame.runMoves {B : Type} (lib : ChessLib B) (g : ChessGame B) :
    List ParsedMove → ChessGame B × List StrikeData
  | [] => (g, [])
  | m :: rest =>
    match g.applyMove lib m with
    | none => ChessGame.runMoves lib g rest
    | some (d, g1) =>
      let (g2, ds) := ChessGame.runMoves lib g1 rest
      (g2, d :: ds)

theorem applyMove_strike_number {B : Type} (lib : ChessLib B) (g : ChessGame B)
    (mv : ParsedMove) (d : StrikeData) (g1 : ChessGame B)
    (h : g.applyMove lib mv = some (d, g1)) :
    d.strike_number = g.moveNumber ∧ g1.moveNumber = g.moveNumber + 1 := by
  unfold ChessGame.applyMove at h
  cases hcm : (if mv.is_san then g.findMoveFromSan lib mv.notationText
               else g.findMove lib mv.src mv.dst) with
  | none => rw [hcm] at h; exact Option.noConfusion h
  | some cm =>
    rw [hcm] at h
    simp only at h
    injection h with h2
    have hd : _ = d := congrArg Prod.fst h2
    have hg : _ = g1 := congrArg Prod.snd h2
    constructor
    · rw [← hd]
      simp only [ChessGame.fillStrikeDataAfterMove, ChessGame.fillStrikeDataBeforeMove]
      split <;> split <;> rfl
    · rw [← hg]

theorem runMoves_strike_numbers {B : Type} (lib : ChessLib B) :
    ∀ (ms : List ParsedMove) (g : ChessGame B),
    ((ChessGame.runMoves lib g ms).2).map (fun d => d.strike_number)
      = List.range' g.moveNumber ((ChessGame.runMoves lib g ms).2).length := by
  intro ms
  induction ms with
  | nil => intro g; rfl
  | cons m rest ih =>
    intro g
    cases happ : g.applyMove lib m with
    | none =>
      simp only [ChessGame.runMoves, happ]
      exact ih g
    | some p =>
      rcases p with ⟨d, g1⟩
      have hsn := applyMove_strike_number lib g m d g1 happ
      rcases hr : ChessGame.runMoves lib g1 rest with ⟨g2, ds⟩
      have hih := ih g1
      rw [hr] at hih
      simp only at hih
      simp only [ChessGame.runMoves, happ, hr]
      simp only [List.map_cons, List.length_cons, hih, hsn.1]
      rw [List.range'_succ g.moveNumber ds.length 1, hsn.2]

/-- Claim C2: in any run of moves that starts from a reset game, the strike
numbers reported by the successful moves are exactly 1, 2, 3, ... in
order: the Nth successful move reports strike_number N, the first report
after a reset is 1, and a rejected move leaves no hole in the
numbering. -/
theorem strike_numbers_sequential_c2 {B : Type} (lib : ChessLib B) (g : ChessGame B)
    (ms : List ParsedMove) :
    ((ChessGame.runMoves lib (ChessGame.reset lib g) ms).2).map (fun d => d.strike_number)
      = List.range' 1 ((ChessGame.runMoves lib (ChessGame.reset lib g) ms).2).length :=
  runMoves_strike_numbers lib ms (ChessGame.reset lib g)

/-- A trivial instantiation of the external chess library with no legal
moves, used to evaluate the embedding at concrete inputs. -/
def unitLib : ChessLib Unit :=
  { startpos := ()
    legalmoves := fun _ => []
    moveToSan := fun _ _ => ""
    pieceAt := fun _ _ => none
    makeMove := fun b _ => b
    inCheck := fun _ => false
    resultLose := fun _ => false
    resultDraw := fun _ => false
    getFen := fun _ => "rnbqkbnr/pppppppp/8/8/8/8/PPPPPPPP/RNBQKBNR w KQkq - 0 1"
    sideToMoveWhite := fun _ => true
    boardStream := fun _ => "" }

/-- An instantiation of the external chess library with one legal move
from e2 to e4 whose application yields a drawn (stalemate) position:
boards are move counters, and every position after the first move
reports a DRAW game result. -/
def drawLib : ChessLib Nat :=
  { startpos := 0
    legalmoves := fun _ => [{ srcSq := "e2", dstSq := "e4", isCastling := false,
                              dstFileIsG := false }]
    moveToSan := fun _ _ => "e4"
    pieceAt := fun _ _ => none
    makeMove := fun b _ => b + 1
    inCheck := fun _ => false
    resultLose := fun _ => false
    resultDraw := fun b => b != 0
    getFen := fun _ => "fen-after"
    sideToMoveWhite := fun _ => true
    boardStream := fun _ => "" }

/-- Claim C1: every command the admissibility table marks inadmissible in a
state is rejected with exactly the error envelope of the table and
leaves the whole context unchanged (same state, same player slots, same
chess model) with no egress, for every context content and requester:
the four rejections in WaitingForPlayers, the four in ReadyToStart, the
three in InProgress, and the five in GameOver. -/
theorem inadmissible_commands_rejected_c1 {B : Type} (lib : ChessLib B) (ch : ChessGame B)
    (w b pid color : String) (mv : ParsedMove) :
    (GameContext.handleStartRequest lib ⟨.waitingForPlayers, ch, w, b⟩ pid
      = (buildError "Cannot start: waiting for players", ⟨.waitingForPlayers, ch, w, b⟩, []))
  ∧ (GameContext.handleMoveRequest lib ⟨.waitingForPlayers, ch, w, b⟩ pid mv
      = (buildError "Cannot move: game not started", ⟨.waitingForPlayers, ch, w, b⟩, []))
  ∧ (GameContext.handleEndRequest lib ⟨.waitingForPlayers, ch, w, b⟩ pid
      = (buildError "No game to end", ⟨.waitingForPlayers, ch, w, b⟩, []))
  ∧ (GameContext.handleDisplayBoard lib ⟨.waitingForPlayers, ch, w, b⟩
      = (buildError "No game to display", ⟨.waitingForPlayers, ch, w, b⟩, []))
  ∧ (GameContext.handleJoinRequest lib ⟨.readyToStart, ch, w, b⟩ pid color
      = (buildError "Both players already joined", ⟨.readyToStart, ch, w, b⟩, []))
  ∧ (GameContext.handleJoinRequestAsSinglePlayer lib ⟨.readyToStart, ch, w, b⟩ pid
      = (buildError "Game already in progress", ⟨.readyToStart, ch, w, b⟩, []))
  ∧ (GameContext.handleMoveRequest lib ⟨.readyToStart, ch, w, b⟩ pid mv
      = (buildError "Game not started yet", ⟨.readyToStart, ch, w, b⟩, []))
  ∧ (GameContext.handleDisplayBoard lib ⟨.readyToStart, ch, w, b⟩
      = (buildError "Game not started yet", ⟨.readyToStart, ch, w, b⟩, []))
  ∧ (GameContext.handleJoinRequest lib ⟨.inProgress, ch, w, b⟩ pid color
      = (buildError "Game already in progress", ⟨.inProgress, ch, w, b⟩, []))
  ∧ (GameContext.handleJoinRequestAsSinglePlayer lib ⟨.inProgress, ch, w, b⟩ pid
      = (buildError "Game already in progress", ⟨.inProgress, ch, w, b⟩, []))
  ∧ (GameContext.handleStartRequest lib ⟨.inProgress, ch, w, b⟩ pid
      = (buildError "Game already started", ⟨.inProgress, ch, w, b⟩, []))
  ∧ (GameContext.handleJoinRequest lib ⟨.gameOver, ch, w, b⟩ pid color
      = (buildError "Game is over. Start a new game", ⟨.gameOver, ch, w, b⟩, []))
  ∧ (GameContext.handleJoinRequestAsSinglePlayer lib ⟨.gameOver, ch, w, b⟩ pid
      = (buildError "Game already in progress", ⟨.gameOver, ch, w, b⟩, []))
  ∧ (GameContext.handleStartRequest lib ⟨.gameOver, ch, w, b⟩ pid
      = (buildError "Game is over. Reset first", ⟨.gameOver, ch, w, b⟩, []))
  ∧ (GameContext.handleMoveRequest lib ⟨.gameOver, ch, w, b⟩ pid mv
      = (buildError "Game is over", ⟨.gameOver, ch, w, b⟩, []))
  ∧ (GameContext.handleDisplayBoard lib ⟨.gameOver, ch, w, b⟩
      = (buildError "Game is over. Start a new game", ⟨.gameOver, ch, w, b⟩, [])) :=
  ⟨rfl, rfl, rfl, rfl, rfl, rfl, rfl, rfl, rfl, rfl, rfl, rfl, rfl, rfl, rfl, rfl⟩

/-- Claim C3: in InProgress, when the chess model rejects the move, the
requester gets exactly the Invalid move error envelope, no egress is
emitted to any other session, and the context (state, player slots,
chess model position and move counter) is unchanged. -/
theorem invalid_move_rejected_c3 {B : Type} (lib : ChessLib B) (ch : ChessGame B)
    (w b pid : String) (mv : ParsedMove)
    (h : ChessGame.applyMove lib ch mv = none) :
    GameContext.handleMoveRequest lib ⟨.inProgress, ch, w, b⟩ pid mv
      = (buildError "Invalid move", ⟨.inProgress, ch, w, b⟩, []) := by
  simp only [GameContext.handleMoveRequest, InProgressState.handleMoveRequest]
  rw [h]

/-- Witness for C3: the concrete no-legal-move library rejects e2-e4 in
an in-progress context and the handler replies the Invalid move error
and changes nothing. -/
theorem invalid_move_rejected_c3_witness :
    GameContext.handleMoveRequest unitLib
        ⟨.inProgress, ⟨(), 1⟩, "session_1", "session_2"⟩ "session_1"
        ⟨"e2-e4", "e2", "e4", false⟩
      = (buildError "Invalid move", ⟨.inProgress, ⟨(), 1⟩, "session_1", "session_2"⟩, []) :=
  invalid_move_rejected_c3 unitLib ⟨(), 1⟩ "session_1" "session_2" "session_1"
    ⟨"e2-e4", "e2", "e4", false⟩ rfl

/-- Claim C4 evidence: end/reset from each state that admits it clears both
player slots, resets the chess model, transitions to WaitingForPlayers
and replies the game_reset envelope to the sender, but emits NO egress:
the broadcast block of GameContext::resetGame sits after its return
statement and is unreachable. -/
theorem reset_clears_but_never_broadcasts_c4 {B : Type} (lib : ChessLib B) (ch : ChessGame B)
    (w b pid : String) :
    (GameContext.handleEndRequest lib ⟨.readyToStart, ch, w, b⟩ pid
      = (Json.obj [("type", Json.str "game_reset"),
                   ("status", Json.str "Waiting for new players")],
         ⟨.waitingForPlayers, ChessGame.reset lib ch, "", ""⟩, []))
  ∧ (GameContext.handleEndRequest lib ⟨.inProgress, ch, w, b⟩ pid
      = (Json.obj [("type", Json.str "game_reset"),
                   ("status", Json.str "Waiting for new players")],
         ⟨.waitingForPlayers, ChessGame.reset lib ch, "", ""⟩, []))
  ∧ (GameContext.handleEndRequest lib ⟨.gameOver, ch, w, b⟩ pid
      = (Json.obj [("type", Json.str "game_reset"),
                   ("status", Json.str "Waiting for new players")],
         ⟨.waitingForPlayers, ChessGame.reset lib ch, "", ""⟩, [])) :=
  ⟨rfl, rfl, rfl⟩

/-- Claim C5 counterexample: a session bound to neither colour starts the game
from ReadyToStart anyway: the handler transitions to InProgress although
the requester differs from both bound players. -/
theorem start_by_stranger_c5_counterexample :
    ("session_3" ≠ "session_1") ∧ ("session_3" ≠ "session_2") ∧
    ((GameContext.handleStartRequest unitLib
        ⟨.readyToStart, ⟨(), 1⟩, "session_1", "session_2"⟩ "session_3").2.1).state
      = GameStateTag.inProgress :=
  ⟨by decide, by decide, rfl⟩

/-- Claim C5 amended: in ReadyToStart the start request succeeds for EVERY
requester (the source performs no bound-player check): the context
transitions to InProgress with the chess model reset and the player
slots unchanged, and the reply is a game_started envelope. -/
theorem start_always_succeeds_c5_amended {B : Type} (lib : ChessLib B) (ch : ChessGame B)
    (w b pid : String) :
    (((GameContext.handleStartRequest lib ⟨.readyToStart, ch, w, b⟩ pid).2.1).state
        = GameStateTag.inProgress)
  ∧ (((GameContext.handleStartRequest lib ⟨.readyToStart, ch, w, b⟩ pid).2.1).chess
        = ChessGame.reset lib ch)
  ∧ (((GameContext.handleStartRequest lib ⟨.readyToStart, ch, w, b⟩ pid).2.1).whitePlayer = w)
  ∧ (((GameContext.handleStartRequest lib ⟨.readyToStart, ch, w, b⟩ pid).2.1).blackPlayer = b)
  ∧ ((GameContext.handleStartRequest lib ⟨.readyToStart, ch, w, b⟩ pid).1.get "type"
        = some (Json.str "game_started")) :=
  ⟨rfl, rfl, rfl, rfl, rfl⟩

/-- Claim C10: in WaitingForPlayers a single-player join always succeeds: it
binds BOTH colour slots to the requester, silently overwriting whatever
was bound before (no error, no egress, so no notification to a displaced
player), transitions to ReadyToStart and replies join_success with
single_player true. -/
theorem single_player_join_overwrites_c10 {B : Type} (lib : ChessLib B) (ch : ChessGame B)
    (w b pid : String) :
    GameContext.handleJoinRequestAsSinglePlayer lib ⟨.waitingForPlayers, ch, w, b⟩ pid
      = (Json.obj
          [("type", Json.str "join_success"),
           ("session_id", Json.str pid),
           ("status", Json.str "Both players joined. Wait for start command to be sent by a player"),
           ("single_player", Json.bool true)],
         ⟨.readyToStart, ch, pid, pid⟩, []) :=
  rfl

/-- The JSON payload of an egress event. -/
def Egress.payload : Egress → Json
  | .toAll _ m => m
  | .toOthers _ m => m
  | .unicastTo _ m => m

/-- Claim C6 evidence: a scripted playback whose single move ends in stalemate
(the applied move reports stalemate true and checkmate false) still
produces a final game_over envelope whose result field is the string
built by the checkmate branch, because both branches of the source build
the same string; the required distinct value would be stalemate. -/
theorem playback_stalemate_result_c6 :
    ((ChessGame.applyMove drawLib ⟨0, 1⟩ ⟨"e2-e4", "e2", "e4", false⟩).map
        (fun p => (p.1.is_stalemate, p.1.is_checkmate))) = some (true, false)
  ∧ (((GameController.processFileContent drawLib
          (fun _ => some [⟨"e2-e4", "e2", "e4", false⟩])
          ⟨.inProgress, ⟨0, 1⟩, "session_1", "session_1"⟩
          "session_1" "game.txt" "file-data").2.getLast?).map
        (fun e => (e.payload).get "result"))
      = some (some (Json.str "checkmate (white wins)"))
  ∧ ("checkmate (white wins)" ≠ "stalemate") :=
  ⟨rfl, rfl, by decide⟩

/-- The upload_game message whose metadata carries chunks_total zero and
chunk_current one, with well-formed field types. -/
def uploadMsgChunksTotalZero : Json :=
  Json.obj
    [("command", Json.str "upload_game"),
     ("metadata", Json.obj
        [("filename", Json.str "f.txt"), ("total_size", Json.num 0),
         ("chunks_total", Json.num 0), ("chunk_current", Json.num 1)]),
     ("data", Json.str "")]

/-- Claim C7 evidence: on an upload_game message with chunks_total zero the
handler reaches the integer division (chunk_current * 100) /
chunks_total with a zero divisor, which C++ leaves undefined, instead of
replying an error envelope. -/
theorem upload_zero_chunks_divzero_c7 :
    GameController.handleFileUploadChunk unitLib (fun _ => none) []
        ⟨.waitingForPlayers, ⟨(), 1⟩, "", ""⟩ uploadMsgChunksTotalZero "session_1"
      = UploadOutcome.divByZero :=
  rfl

/-- Claim C9 counterexample: with black already bound to another session, the
first white join of session_1 succeeds and completes the pair, which
transitions the game to ReadyToStart, so the second identical join is
answered with the Both players already joined error rather than a second
join_success. -/
theorem double_join_c9_counterexample :
    (((GameContext.handleJoinRequest unitLib
          ⟨.waitingForPlayers, ⟨(), 1⟩, "", "session_2"⟩ "session_1" "white").1).get "type"
        = some (Json.str "join_success"))
  ∧ (((GameContext.handleJoinRequest unitLib
          ⟨.waitingForPlayers, ⟨(), 1⟩, "", "session_2"⟩ "session_1" "white").2.1).state
        = GameStateTag.readyToStart)
  ∧ ((GameContext.handleJoinRequest unitLib
        ((GameContext.handleJoinRequest unitLib
            ⟨.waitingForPlayers, ⟨(), 1⟩, "", "session_2"⟩ "session_1" "white").2.1)
        "session_1" "white").1
      = buildError "Both players already joined") :=
  ⟨rfl, rfl, rfl⟩

/-- Claim C9 amended: joining the same colour twice from the same session is
idempotent and succeeds both times PROVIDED the opposite colour slot is
unbound, so that the first join leaves the game in WaitingForPlayers;
the second join then returns the identical join_success reply, the
identical context (same bindings) and the identical egress.  Stated for
white (with any prior white binding that is empty or the requester
itself) and symmetrically for black. -/
theorem double_join_idempotent_c9_amended {B : Type} (lib : ChessLib B) (ch : ChessGame B)
    (w b pid : String) (hw : w = "" ∨ w = pid) (hb : b = "" ∨ b = pid) :
    (((GameContext.handleJoinRequest lib ⟨.waitingForPlayers, ch, w, ""⟩ pid "white").1).get "type"
        = some (Json.str "join_success"))
  ∧ (GameContext.handleJoinRequest lib
        ((GameContext.handleJoinRequest lib ⟨.waitingForPlayers, ch, w, ""⟩ pid "white").2.1)
        pid "white"
      = GameContext.handleJoinRequest lib ⟨.waitingForPlayers, ch, w, ""⟩ pid "white")
  ∧ (((GameContext.handleJoinRequest lib ⟨.waitingForPlayers, ch, "", b⟩ pid "black").1).get "type"
        = some (Json.str "join_success"))
  ∧ (GameContext.handleJoinRequest lib
        ((GameContext.handleJoinRequest lib ⟨.waitingForPlayers, ch, "", b⟩ pid "black").2.1)
        pid "black"
      = GameContext.handleJoinRequest lib ⟨.waitingForPlayers, ch, "", b⟩ pid "black") := by
  have hwhite : ∀ (c : GameContext B), c = ⟨.waitingForPlayers, ch, w, ""⟩ →
      GameContext.handleJoinRequest lib c pid "white"
        = joinRequestTail lib ⟨.waitingForPlayers, ch, pid, ""⟩ pid "white" := by
    intro c hc
    subst hc
    rcases hw with h | h <;> subst h <;>
      simp [GameContext.handleJoinRequest, WaitingForPlayersState.handleJoinRequest,
            GameContext.hasWhitePlayer, show ("" : String).isEmpty = true from rfl]
  have hblack : ∀ (c : GameContext B), c = ⟨.waitingForPlayers, ch, "", b⟩ →
      GameContext.handleJoinRequest lib c pid "black"
        = joinRequestTail lib ⟨.waitingForPlayers, ch, "", pid⟩ pid "black" := by
    intro c hc
    subst hc
    rcases hb with h | h <;> subst h <;>
      simp [GameContext.handleJoinRequest, WaitingForPlayersState.handleJoinRequest,
            GameContext.hasBlackPlayer, show ("" : String).isEmpty = true from rfl]
  have htailw : joinRequestTail lib (⟨.waitingForPlayers, ch, pid, ""⟩ : GameContext B)
      pid "white"
      = (Json.obj
          [("type", Json.str "join_success"), ("session_id", Json.str pid),
           ("color", Json.str "white"),
           ("status", Json.str (GameContext.getStatusMessage lib
              ⟨.waitingForPlayers, ch, pid, ""⟩)),
           ("single_player", Json.bool false)],
         ⟨.waitingForPlayers, ch, pid, ""⟩,
         [Egress.toOthers pid (Json.obj
            [("type", Json.str "player_joined"), ("color", Json.str "white"),
             ("status", Json.str (GameContext.getStatusMessage lib
                ⟨.waitingForPlayers, ch, pid, ""⟩))])]) := by
    simp [joinRequestTail, GameContext.bothPlayersJoined, GameContext.hasWhitePlayer,
          GameContext.hasBlackPlayer, show ("" : String).isEmpty = true from rfl]
  have htailb : joinRequestTail lib (⟨.waitingForPlayers, ch, "", pid⟩ : GameContext B)
      pid "black"
      = (Json.obj
          [("type", Json.str "join_success"), ("session_id", Json.str pid),
           ("color", Json.str "black"),
           ("status", Json.str (GameContext.getStatusMessage lib
              ⟨.waitingForPlayers, ch, "", pid⟩)),
           ("single_player", Json.bool false)],
         ⟨.waitingForPlayers, ch, "", pid⟩,
         [Egress.toOthers pid (Json.obj
            [("type", Json.str "player_joined"), ("color", Json.str "black"),
             ("status", Json.str (GameContext.getStatusMessage lib
                ⟨.waitingForPlayers, ch, "", pid⟩))])]) := by
    simp [joinRequestTail, GameContext.bothPlayersJoined, GameContext.hasWhitePlayer,
          GameContext.hasBlackPlayer, show ("" : String).isEmpty = true from rfl]
  have h1 := hwhite _ rfl
  have h3 := hblack _ rfl
  refine ⟨?_, ?_, ?_, ?_⟩
  · rw [h1, htailw]; rfl
  · rw [h1, htailw]
    have h2 : GameContext.handleJoinRequest lib
        (⟨.waitingForPlayers, ch, pid, ""⟩ : GameContext B) pid "white"
        = joinRequestTail lib ⟨.waitingForPlayers, ch, pid, ""⟩ pid "white" := by
      simp [GameContext.handleJoinRequest, WaitingForPlayersState.handleJoinRequest,
            GameContext.hasWhitePlayer]
    simp only
    rw [h2, htailw]
  · rw [h3, htailb]; rfl
  · rw [h3, htailb]
    have h4 : GameContext.handleJoinRequest lib
        (⟨.waitingForPlayers, ch, "", pid⟩ : GameContext B) pid "black"
        = joinRequestTail lib ⟨.waitingForPlayers, ch, "", pid⟩ pid "black" := by
      simp [GameContext.handleJoinRequest, WaitingForPlayersState.handleJoinRequest,
            GameContext.hasBlackPlayer]
    simp only
    rw [h4, htailb]

/-- Witness for the amended C9 at a concrete input: session_1 joins
white twice (and black twice) in a waiting game with the opposite slot
empty; both second joins return the identical join_success result. -/
theorem double_join_idempotent_c9_witness :
    (("" : String) = "" ∨ ("" : String) = "session_1")
  ∧ ((((GameContext.handleJoinRequest unitLib
          ⟨.waitingForPlayers, ⟨(), 1⟩, "", ""⟩ "session_1" "white").1).get "type"
        = some (Json.str "join_success"))
    ∧ (GameContext.handleJoinRequest unitLib
          ((GameContext.handleJoinRequest unitLib
              ⟨.waitingForPlayers, ⟨(), 1⟩, "", ""⟩ "session_1" "white").2.1)
          "session_1" "white"
        = GameContext.handleJoinRequest unitLib
            ⟨.waitingForPlayers, ⟨(), 1⟩, "", ""⟩ "session_1" "white")
    ∧ (((GameContext.handleJoinRequest unitLib
          ⟨.waitingForPlayers, ⟨(), 1⟩, "", ""⟩ "session_1" "black").1).get "type"
        = some (Json.str "join_success"))
    ∧ (GameContext.handleJoinRequest unitLib
          ((GameContext.handleJoinRequest unitLib
              ⟨.waitingForPlayers, ⟨(), 1⟩, "", ""⟩ "session_1" "black").2.1)
          "session_1" "black"
        = GameContext.handleJoinRequest unitLib
            ⟨.waitingForPlayers, ⟨(), 1⟩, "", ""⟩ "session_1" "black")) :=
  ⟨Or.inl rfl,
   double_join_idempotent_c9_amended unitLib ⟨(), 1⟩ "" "" "session_1"
     (Or.inl rfl) (Or.inl rfl)⟩
